import Mathlib

/-!
# Verification of the IPEDS ETL raw-ingestion and normalization core

Shallow embedding of the repository's Python modules:

* `etl/mappers/directory.py` — missing-value detection (`_is_missing`),
  candidate-key fallback (`_pick`), type coercions (`_to_int`, `_to_float`,
  `_to_str`) and the directory mapper (`map_directory_row`);
* `etl/registry.py` — the declared column list for the `directory` endpoint;
* `etl/raw_io.py` — page chunking and the hash-gated raw-archive upsert
  (`insert_raw_payloads`);
* `etl/http.py` — the retry loop (`get_with_retries`) and the pagination
  loop (`fetch_endpoint_data`).

Python scalar values are embedded as `PyVal`: `None`, `bool`, `int`, `str`
and `float`, where a Python float is carried as an exact rational (`Rat`);
the float inputs exercised by the claims (the IPEDS codes and small
decimals such as `12.9`) behave identically under exact rationals.
Python dicts of JSON scalars are embedded as association lists keyed by
`String` (dict keys are unique, so first-match lookup agrees with dict
lookup).  Database and network effects are made explicit: the raw table is
a list of rows, an HTTP server is a function from URL to response, and the
attempt-indexed outcome of `session.get` is a function `Nat → Option ρ`.
-/

/-- Embedding of the Python scalar values that flow through the mapper:
`None`, `bool`, `int`, `float` (as an exact rational) and `str`. -/
inductive PyVal where
  | none
  | bool (b : Bool)
  | int (n : Int)
  | float (q : Rat)
  | str (s : String)
deriving DecidableEq, Repr

/-- A Python dict of scalar JSON values, as an association list.
Dict keys are unique, so first-match lookup models dict lookup. -/
def PyRow : Type := List (String × PyVal)

/-- Model of Python `str.isspace` members used by `str.strip()`:
space, tab, newline, carriage return, vertical tab, form feed. -/
def pyIsSpace (c : Char) : Bool :=
  c = ' ' || c = '\t' || c = '\n' || c = '\r' || c = '\x0b' || c = '\x0c'

/-- Model of Python `str.strip()`: drop whitespace from both ends. -/
def pyStrip (s : String) : String :=
  String.mk (((s.data.dropWhile pyIsSpace).reverse.dropWhile pyIsSpace).reverse)

/-- Decimal value of a digit list (used by the numeric-string parsers). -/
def digitsVal (cs : List Char) : Nat :=
  cs.foldl (fun a c => a * 10 + (c.toNat - 48)) 0

/-- Model of Python `int(s)` on an (already stripped) string: an optional
sign followed by one or more ASCII digits; anything else is a
`ValueError`, modelled as `none`. -/
def pyParseInt (s : String) : Option Int :=
  match s.data with
  | [] => Option.none
  | c :: rest =>
    let sgn : Int := if c = '-' then -1 else 1
    let body : List Char := if c = '-' || c = '+' then rest else c :: rest
    if !body.isEmpty && body.all Char.isDigit then Option.some (sgn * (digitsVal body : Int))
    else Option.none

/-- Model of Python `float(s)` on an (already stripped) string: an optional
sign, then digits with at most one decimal point and at least one digit
(`"12"`, `"12."`, `".5"`, `"12.34"`).  Exponent and `inf`/`nan` spellings
are outside the model; no claim depends on them.  Malformed input is a
`ValueError`, modelled as `none`. -/
def pyParseFloat (s : String) : Option Rat :=
  match s.data with
  | [] => Option.none
  | c :: rest =>
    let sgn : Rat := if c = '-' then -1 else 1
    let body : List Char := if c = '-' || c = '+' then rest else c :: rest
    let ip := body.takeWhile (fun d => d ≠ '.')
    match body.dropWhile (fun d => d ≠ '.') with
    | [] =>
      if !ip.isEmpty && ip.all Char.isDigit then Option.some (sgn * (digitsVal ip : Rat))
      else Option.none
    | _ :: fp =>
      if fp.any (fun d => d = '.') then Option.none
      else if ip.isEmpty && fp.isEmpty then Option.none
      else if ip.all Char.isDigit && fp.all Char.isDigit then
        Option.some (sgn * ((digitsVal ip : Rat) + (digitsVal fp : Rat) / ((10 : Rat) ^ fp.length)))
      else Option.none

/-- Model of Python `str(v)` on the embedded scalars.  `str` of a float is
modelled as a non-empty decimal-style spelling; no claim inspects its exact
characters, only that it is a non-empty string. -/
def pyStr : PyVal → String
  | .none => "None"
  | .bool b => if b then "True" else "False"
  | .int n => toString n
  | .float q => if q.den = 1 then toString q.num ++ ".0" else toString q
  | .str s => s

/-- `_is_missing` from `etl/mappers/directory.py`: `None`, empty or
whitespace-only strings, the strings `"-1"`, `"-2"`, `"-3"` after stripping, and
non-string values numerically equal to `-1`, `-2` or `-3`.  Python `bool`
compares equal to `0`/`1`, so booleans are never missing. -/
def _is_missing (v : PyVal) : Bool :=
  match v with
  | .none => true
  | .str s =>
    let t := pyStrip s
    t = "" || t = "-1" || t = "-2" || t = "-3"
  | .bool _ => false
  | .int n => n = -1 || n = -2 || n = -3
  | .float q => q = -1 || q = -2 || q = -3

/-- `_pick` from `etl/mappers/directory.py`: first key of `keys` that is
present in `row` with a non-missing value; Python `None` (`PyVal.none`)
when no candidate qualifies. -/
def _pick (row : PyRow) (keys : List String) : PyVal :=
  match keys with
  | [] => .none
  | k :: ks =>
    match List.lookup k row with
    | Option.some v => if _is_missing v then _pick row ks else v
    | Option.none => _pick row ks

/-- `_to_int` from `etl/mappers/directory.py`: `None` for missing input,
otherwise Python `int(v)` with strings stripped first; `ValueError` /
`TypeError` are caught and modelled as `none`.  `int` of a float truncates
toward zero (`Int.tdiv` of the reduced numerator and denominator). -/
def _to_int (v : PyVal) : Option Int :=
  if _is_missing v then Option.none
  else
    match v with
    | .none => Option.none
    | .bool b => Option.some (if b then 1 else 0)
    | .int n => Option.some n
    | .float q => Option.some (q.num.tdiv q.den)
    | .str s => pyParseInt (pyStrip s)

/-- `_to_float` from `etl/mappers/directory.py`: `None` for missing input,
otherwise Python `float(v)` with strings stripped first; malformed input
is modelled as `none`. -/
def _to_float (v : PyVal) : Option Rat :=
  if _is_missing v then Option.none
  else
    match v with
    | .none => Option.none
    | .bool b => Option.some (if b then 1 else 0)
    | .int n => Option.some (n : Rat)
    | .float q => Option.some q
    | .str s => pyParseFloat (pyStrip s)

/-- `_to_str` from `etl/mappers/directory.py`: `None` for missing input,
otherwise `str(v).strip()`, collapsed to `None` when empty. -/
def _to_str (v : PyVal) : Option String :=
  if _is_missing v then Option.none
  else
    let s := pyStrip (pyStr v)
    if s = "" then Option.none else Option.some s

/-- Re-embed an optional int as the Python value stored in the mapped dict. -/
def intOpt : Option Int → PyVal
  | Option.none => .none
  | Option.some n => .int n

/-- Re-embed an optional float as the Python value stored in the mapped dict. -/
def floatOpt : Option Rat → PyVal
  | Option.none => .none
  | Option.some q => .float q

/-- Re-embed an optional string as the Python value stored in the mapped dict. -/
def strOpt : Option String → PyVal
  | Option.none => .none
  | Option.some s => .str s

/-- `map_directory_row` from `etl/mappers/directory.py`: one raw record
mapped to the typed dict whose keys are the `directory` columns declared
in `etl/registry.py`, in source order. -/
def map_directory_row (row : PyRow) : List (String × PyVal) :=
  [
    ("unitid", intOpt (_to_int (_pick row ["unitid"]))),
    ("year", intOpt (_to_int (_pick row ["year"]))),
    ("opeid", strOpt (_to_str (_pick row ["opeid"]))),
    ("inst_name", strOpt (_to_str (_pick row ["inst_name", "institution_name", "instnm", "name"]))),
    ("inst_alias", strOpt (_to_str (_pick row ["inst_alias"]))),
    ("address", strOpt (_to_str (_pick row ["address"]))),
    ("city", strOpt (_to_str (_pick row ["city"]))),
    ("state_abbr", strOpt (_to_str (_pick row ["state_abbr", "stabbr", "state"]))),
    ("zip", strOpt (_to_str (_pick row ["zip", "zip5", "zip_code"]))),
    ("phone_number", strOpt (_to_str (_pick row ["phone_number", "phone"]))),
    ("url_school", strOpt (_to_str (_pick row ["url_school", "website", "web_address"]))),
    ("url_fin_aid", strOpt (_to_str (_pick row ["url_fin_aid"]))),
    ("url_application", strOpt (_to_str (_pick row ["url_application"]))),
    ("url_netprice", strOpt (_to_str (_pick row ["url_netprice"]))),
    ("url_veterans", strOpt (_to_str (_pick row ["url_veterans"]))),
    ("url_athletes", strOpt (_to_str (_pick row ["url_athletes"]))),
    ("url_disability_services", strOpt (_to_str (_pick row ["url_disability_services"]))),
    ("ein", strOpt (_to_str (_pick row ["ein"]))),
    ("duns", strOpt (_to_str (_pick row ["duns"]))),
    ("ueis", strOpt (_to_str (_pick row ["ueis"]))),
    ("chief_admin_name", strOpt (_to_str (_pick row ["chief_admin_name"]))),
    ("chief_admin_title", strOpt (_to_str (_pick row ["chief_admin_title"]))),
    ("inst_system_name", strOpt (_to_str (_pick row ["inst_system_name"]))),
    ("fips", intOpt (_to_int (_pick row ["fips"]))),
    ("county_name", strOpt (_to_str (_pick row ["county_name"]))),
    ("county_fips", intOpt (_to_int (_pick row ["county_fips"]))),
    ("region", intOpt (_to_int (_pick row ["region"]))),
    ("urban_centric_locale", intOpt (_to_int (_pick row ["urban_centric_locale", "locale"]))),
    ("cbsa", intOpt (_to_int (_pick row ["cbsa"]))),
    ("cbsa_type", intOpt (_to_int (_pick row ["cbsa_type"]))),
    ("csa", intOpt (_to_int (_pick row ["csa"]))),
    ("necta", intOpt (_to_int (_pick row ["necta"]))),
    ("congress_district_id", intOpt (_to_int (_pick row ["congress_district_id"]))),
    ("latitude", floatOpt (_to_float (_pick row ["latitude", "lat"]))),
    ("longitude", floatOpt (_to_float (_pick row ["longitude", "lon", "lng"]))),
    ("inst_status", intOpt (_to_int (_pick row ["inst_status"]))),
    ("sector", intOpt (_to_int (_pick row ["sector", "sector_cd"]))),
    ("inst_control", intOpt (_to_int (_pick row ["inst_control", "control"]))),
    ("institution_level", intOpt (_to_int (_pick row ["institution_level", "level", "iclevel"]))),
    ("inst_category", intOpt (_to_int (_pick row ["inst_category"]))),
    ("inst_size", intOpt (_to_int (_pick row ["inst_size"]))),
    ("degree_granting", intOpt (_to_int (_pick row ["degree_granting"]))),
    ("title_iv_indicator", intOpt (_to_int (_pick row ["title_iv_indicator"]))),
    ("hbcu", intOpt (_to_int (_pick row ["hbcu"]))),
    ("tribal_college", intOpt (_to_int (_pick row ["tribal_college"]))),
    ("land_grant", intOpt (_to_int (_pick row ["land_grant"]))),
    ("hospital", intOpt (_to_int (_pick row ["hospital"]))),
    ("medical_degree", intOpt (_to_int (_pick row ["medical_degree"]))),
    ("open_public", intOpt (_to_int (_pick row ["open_public"]))),
    ("currently_active_ipeds", intOpt (_to_int (_pick row ["currently_active_ipeds"]))),
    ("postsec_public_active", intOpt (_to_int (_pick row ["postsec_public_active"]))),
    ("postsec_public_active_title_iv", intOpt (_to_int (_pick row ["postsec_public_active_title_iv"]))),
    ("primarily_postsecondary", intOpt (_to_int (_pick row ["primarily_postsecondary"]))),
    ("offering_highest_degree", intOpt (_to_int (_pick row ["offering_highest_degree"]))),
    ("offering_highest_level", intOpt (_to_int (_pick row ["offering_highest_level"]))),
    ("offering_undergrad", intOpt (_to_int (_pick row ["offering_undergrad"]))),
    ("offering_grad", intOpt (_to_int (_pick row ["offering_grad"]))),
    ("reporting_method", intOpt (_to_int (_pick row ["reporting_method"]))),
    ("inst_system_flag", intOpt (_to_int (_pick row ["inst_system_flag"]))),
    ("comparison_group", intOpt (_to_int (_pick row ["comparison_group"]))),
    ("comparison_group_custom", intOpt (_to_int (_pick row ["comparison_group_custom"]))),
    ("newid", intOpt (_to_int (_pick row ["newid"]))),
    ("date_closed", strOpt (_to_str (_pick row ["date_closed"]))),
    ("year_deleted", intOpt (_to_int (_pick row ["year_deleted"]))),
    ("cc_basic_2000", intOpt (_to_int (_pick row ["cc_basic_2000"]))),
    ("cc_basic_2010", intOpt (_to_int (_pick row ["cc_basic_2010"]))),
    ("cc_basic_2015", intOpt (_to_int (_pick row ["cc_basic_2015"]))),
    ("cc_basic_2018", intOpt (_to_int (_pick row ["cc_basic_2018"]))),
    ("cc_basic_2021", intOpt (_to_int (_pick row ["cc_basic_2021"]))),
    ("cc_instruc_undergrad_2010", intOpt (_to_int (_pick row ["cc_instruc_undergrad_2010"]))),
    ("cc_instruc_undergrad_2015", intOpt (_to_int (_pick row ["cc_instruc_undergrad_2015"]))),
    ("cc_instruc_undergrad_2018", intOpt (_to_int (_pick row ["cc_instruc_undergrad_2018"]))),
    ("cc_instruc_undergrad_2021", intOpt (_to_int (_pick row ["cc_instruc_undergrad_2021"]))),
    ("cc_instruc_grad_2010", intOpt (_to_int (_pick row ["cc_instruc_grad_2010"]))),
    ("cc_instruc_grad_2015", intOpt (_to_int (_pick row ["cc_instruc_grad_2015"]))),
    ("cc_instruc_grad_2018", intOpt (_to_int (_pick row ["cc_instruc_grad_2018"]))),
    ("cc_instruc_grad_2021", intOpt (_to_int (_pick row ["cc_instruc_grad_2021"]))),
    ("cc_undergrad_2010", intOpt (_to_int (_pick row ["cc_undergrad_2010"]))),
    ("cc_undergrad_2015", intOpt (_to_int (_pick row ["cc_undergrad_2015"]))),
    ("cc_undergrad_2018", intOpt (_to_int (_pick row ["cc_undergrad_2018"]))),
    ("cc_undergrad_2021", intOpt (_to_int (_pick row ["cc_undergrad_2021"]))),
    ("cc_enroll_2010", intOpt (_to_int (_pick row ["cc_enroll_2010"]))),
    ("cc_enroll_2015", intOpt (_to_int (_pick row ["cc_enroll_2015"]))),
    ("cc_enroll_2018", intOpt (_to_int (_pick row ["cc_enroll_2018"]))),
    ("cc_enroll_2021", intOpt (_to_int (_pick row ["cc_enroll_2021"]))),
    ("cc_size_setting_2010", intOpt (_to_int (_pick row ["cc_size_setting_2010"]))),
    ("cc_size_setting_2015", intOpt (_to_int (_pick row ["cc_size_setting_2015"]))),
    ("cc_size_setting_2018", intOpt (_to_int (_pick row ["cc_size_setting_2018"]))),
    ("cc_size_setting_2021", intOpt (_to_int (_pick row ["cc_size_setting_2021"])))
  ]

/-- The column names of `REGISTRY["directory"]["schema"]` from
`etl/registry.py`, in declaration order. -/
def directory_schema_columns : List String :=
  [
    "unitid",
    "year",
    "opeid",
    "inst_name",
    "inst_alias",
    "address",
    "city",
    "state_abbr",
    "zip",
    "phone_number",
    "url_school",
    "url_fin_aid",
    "url_application",
    "url_netprice",
    "url_veterans",
    "url_athletes",
    "url_disability_services",
    "ein",
    "duns",
    "ueis",
    "chief_admin_name",
    "chief_admin_title",
    "inst_system_name",
    "fips",
    "county_name",
    "county_fips",
    "region",
    "urban_centric_locale",
    "cbsa",
    "cbsa_type",
    "csa",
    "necta",
    "congress_district_id",
    "latitude",
    "longitude",
    "inst_status",
    "sector",
    "inst_control",
    "institution_level",
    "inst_category",
    "inst_size",
    "degree_granting",
    "title_iv_indicator",
    "hbcu",
    "tribal_college",
    "land_grant",
    "hospital",
    "medical_degree",
    "open_public",
    "currently_active_ipeds",
    "postsec_public_active",
    "postsec_public_active_title_iv",
    "primarily_postsecondary",
    "offering_highest_degree",
    "offering_highest_level",
    "offering_undergrad",
    "offering_grad",
    "reporting_method",
    "inst_system_flag",
    "comparison_group",
    "comparison_group_custom",
    "newid",
    "date_closed",
    "year_deleted",
    "cc_basic_2000",
    "cc_basic_2010",
    "cc_basic_2015",
    "cc_basic_2018",
    "cc_basic_2021",
    "cc_instruc_undergrad_2010",
    "cc_instruc_undergrad_2015",
    "cc_instruc_undergrad_2018",
    "cc_instruc_undergrad_2021",
    "cc_instruc_grad_2010",
    "cc_instruc_grad_2015",
    "cc_instruc_grad_2018",
    "cc_instruc_grad_2021",
    "cc_undergrad_2010",
    "cc_undergrad_2015",
    "cc_undergrad_2018",
    "cc_undergrad_2021",
    "cc_enroll_2010",
    "cc_enroll_2015",
    "cc_enroll_2018",
    "cc_enroll_2021",
    "cc_size_setting_2010",
    "cc_size_setting_2015",
    "cc_size_setting_2018",
    "cc_size_setting_2021"
  ]

/-- One row of `ipeds_raw.<endpoint>_raw` as written by
`insert_raw_payloads` in `etl/raw_io.py`.  The record type `α` is the
payload element type (one raw JSON record, treated opaquely by the
archive); `ingested_at` is an abstract timestamp. -/
structure RawRow (α : Type) where
  year : Int
  page_number : Nat
  source_url : String
  source_hash : String
  ingested_at : Nat
  record_count : Nat
  payload : List α

/-- The primary key `(year, page_number)` of a raw row. -/
def rowKey {α : Type} (r : RawRow α) : Int × Nat := (r.year, r.page_number)

/-- Model of Python `s.rstrip("/")`. -/
def pyRstripSlash (s : String) : String :=
  String.mk ((s.data.reverse.dropWhile (fun c => c = '/')).reverse)

/-- Model of Python `s.lstrip("/")`. -/
def pyLstripSlash (s : String) : String :=
  String.mk (s.data.dropWhile (fun c => c = '/'))

/-- Model of Python `s.startswith(p)`. -/
def pyStartsWith (s p : String) : Bool :=
  p.data.isPrefixOf s.data

/-- The synthetic `source_url` built for each page row in
`insert_raw_payloads` (`etl/raw_io.py`). -/
def pageSourceUrl (base_url endpoint_path : String) (year : Int) (page ps : Nat) : String :=
  pyRstripSlash base_url ++
    (if pyStartsWith endpoint_path "/" then endpoint_path else "/" ++ endpoint_path) ++
    "?year=" ++ toString year ++ "&page=" ++ toString page ++ "&pagesize=" ++ toString ps

/-- The chunking comprehension of `insert_raw_payloads`
(`etl/raw_io.py`): `[all_records[i:i+ps] for i in range(0, len(all_records), ps)]`.
`range(0, n, ps)` has `(n + ps - 1) / ps` elements whose `i`-th member is
`i * ps`, and `l[j:j+ps]` is `(l.drop j).take ps`. -/
def chunksOf {α : Type} (ps : Nat) (l : List α) : List (List α) :=
  (List.range ((l.length + ps - 1) / ps)).map (fun i => (l.drop (i * ps)).take ps)

/-- The page rows built by step 4 of `insert_raw_payloads`
(`etl/raw_io.py`): 1-based page numbers over the chunks, each row carrying
the synthetic URL, the content digest of its chunk, the run timestamp and
the chunk itself.  `_stable_json_hash` is passed in as an abstract
deterministic digest `hash` (its definition — sha1 of the canonical JSON
encoding — is a fixed function of the chunk, which is all the archive
relies on). -/
def buildRawRows {α : Type} (hash : List α → String) (base_url endpoint_path : String)
    (year : Int) (ps now : Nat) (chunks : List (List α)) : List (RawRow α) :=
  chunks.enum.map (fun p =>
    { year := year
      page_number := p.1 + 1
      source_url := pageSourceUrl base_url endpoint_path year (p.1 + 1) ps
      source_hash := hash p.2
      ingested_at := now
      record_count := p.2.length
      payload := p.2 })

/-- One execution of the `INSERT ... ON CONFLICT (year, page_number)
DO UPDATE ... WHERE stored.source_hash IS DISTINCT FROM EXCLUDED.source_hash`
statement of `insert_raw_payloads` against the table state: insert if no
row has the key; otherwise rewrite the conflicting row (with
`ingested_at = now()`) only when its stored hash differs from the new one.
Both hashes are non-null strings, so `IS DISTINCT FROM` is plain `≠`. -/
def upsertRawRow {α : Type} (now : Nat) (tbl : List (RawRow α)) (r : RawRow α) :
    List (RawRow α) :=
  if tbl.any (fun s => decide (rowKey s = rowKey r)) then
    tbl.map (fun s =>
      if rowKey s = rowKey r ∧ s.source_hash ≠ r.source_hash then
        { r with ingested_at := now }
      else s)
  else tbl ++ [r]

/-- The effective chunk size of `insert_raw_payloads`
(`page_size or getattr(settings, "RAW_PAGE_SIZE", 500)`): `settings` has no
`RAW_PAGE_SIZE` attribute, so the fallback is 500, and Python `or` treats
an explicit `0` as falsy. -/
def effectivePageSize (page_size : Option Nat) : Nat :=
  match page_size with
  | Option.none => 500
  | Option.some n => if n = 0 then 500 else n

/-- `insert_raw_payloads` from `etl/raw_io.py`, given the already fetched
record list: chunk into pages (`page_size or RAW_PAGE_SIZE(=500)`; Python
`or` also maps an explicit `0` to the default), return `(tbl, 0)` when
there are no chunks, otherwise upsert every built page row in order and
return the new table state and the page count. -/
def insert_raw_payloads {α : Type} (hash : List α → String)
    (base_url endpoint_path : String) (year : Int) (page_size : Option Nat)
    (now : Nat) (all_records : List α) (tbl : List (RawRow α)) :
    List (RawRow α) × Nat :=
  let ps := effectivePageSize page_size
  let chunks := chunksOf ps all_records
  if chunks.isEmpty then (tbl, 0)
  else ((buildRawRows hash base_url endpoint_path year ps now chunks).foldl
          (upsertRawRow now) tbl,
        chunks.length)

/-- One parsed JSON page body as consumed by `fetch_endpoint_data`
(`etl/http.py`): `results` is `some` when the `results` key is present
(the code reads it as `data.get("results", [])`), `next` is the optional
pagination cursor. -/
structure ApiPage (α : Type) where
  results : Option (List α)
  next : Option String

/-- URL resolution for the `next` cursor in `fetch_endpoint_data`:
absolute URLs are followed verbatim, anything else is joined to the base
(`urljoin(base, next.lstrip("/"))`; the base ends in `/` and the cursor is
a plain relative path, for which `urljoin` is concatenation). -/
def resolveNext (base nu : String) : String :=
  if pyStartsWith nu "http" then nu else base ++ pyLstripSlash nu

/-- The `while True` pagination loop of `fetch_endpoint_data`
(`etl/http.py`), with explicit fuel for the unbounded loop (`none` means
the loop did not finish within `fuel` iterations).  The server is a
function from URL to either a fetch-exhausted error raised by
`get_with_retries` (propagated unhandled) or a parsed page.  Each
iteration appends `data.get("results", [])`, then stops when the `next`
cursor is absent or falsy (Python `if not next_url`, which is `None` or
`""`), else follows the resolved cursor. -/
def fetchLoop {α : Type} (server : String → Except String (ApiPage α)) (base : String) :
    Nat → String → List α → Option (Except String (List α))
  | 0, _, _ => Option.none
  | fuel + 1, url, acc =>
    match server url with
    | .error e => Option.some (.error e)
    | .ok data =>
      let acc2 := acc ++ data.results.getD []
      match data.next with
      | Option.none => Option.some (.ok acc2)
      | Option.some nu =>
        if nu = "" then Option.some (.ok acc2)
        else fetchLoop server base fuel (resolveNext base nu) acc2

/-- `fetch_endpoint_data` from `etl/http.py`, starting from the
already-normalized first-page path (the `{year}` substitution and slash
normalization of lines 96–104 only shape this initial string): run the
pagination loop from `urljoin(base, path) = base ++ path` with an empty
accumulator. -/
def fetch_endpoint_data {α : Type} (server : String → Except String (ApiPage α))
    (base path : String) (fuel : Nat) : Option (Except String (List α)) :=
  fetchLoop server base fuel (base ++ path) []

/-- The `for attempt in range(max_retries)` loop of `get_with_retries`
(`etl/http.py`).  `outcome i` is the result of the `i`-th `session.get` /
`raise_for_status`: `some r` for a 2xx response `r`, `none` for a raised
`requests.RequestException`.  Returns the successful response (if any)
and the number of attempts actually made. -/
def retryLoop {ρ : Type} (outcome : Nat → Option ρ) : Nat → Nat → Option ρ × Nat
  | _, 0 => (Option.none, 0)
  | attempt, remaining + 1 =>
    match outcome attempt with
    | Option.some resp => (Option.some resp, 1)
    | Option.none =>
      let res := retryLoop outcome (attempt + 1) remaining
      (res.1, res.2 + 1)

/-- `get_with_retries` from `etl/http.py`: run up to `max_retries`
attempts; on success return the response, on exhaustion raise
`Exception(f"[FAIL] Giving up after {max_retries} failed attempts to
fetch {url}")`, modelled as `Except.error` of that exact message.  The
second component is the number of GET attempts made. -/
def get_with_retries {ρ : Type} (outcome : Nat → Option ρ) (url : String)
    (max_retries : Nat) : Except String ρ × Nat :=
  let res := retryLoop outcome 0 max_retries
  match res.1 with
  | Option.some resp => (.ok resp, res.2)
  | Option.none =>
    (.error ("[FAIL] Giving up after " ++ toString max_retries ++
       " failed attempts to fetch " ++ url), res.2)

/-- A key of `keys` qualifies in `row` when it is present with a
non-missing value — the test `_pick` applies to each candidate in order. -/
def pickQualifies (row : PyRow) (k : String) : Bool :=
  match List.lookup k row with
  | Option.some v => !(_is_missing v)
  | Option.none => false

/-- The claim C2 scenario: starting from `url`, the server serves a finite
sequence of pages, each carrying a `next` cursor that resolves to the next
page's URL, with the last page carrying no `next`.  The list collects each
page's `results` contribution (`data.get("results", [])`) in order. -/
inductive PageChain {α : Type} (server : String → Except String (ApiPage α)) (base : String) :
    String → List (List α) → Prop
  | last {url : String} {data : ApiPage α} :
      server url = .ok data → data.next = Option.none →
      PageChain server base url [data.results.getD []]
  | step {url nu : String} {data : ApiPage α} {rest : List (List α)} :
      server url = .ok data → data.next = Option.some nu → nu ≠ "" →
      PageChain server base (resolveNext base nu) rest →
      PageChain server base url (data.results.getD [] :: rest)

/-- A concrete two-page server used to exercise the pagination loop:
the first page returns records `[1, 2]` and a relative cursor `p2`, the
second returns `[3]` with no cursor. -/
def demoServer : String → Except String (ApiPage Nat) := fun u =>
  if u = "http://api/d/2022/" then .ok ⟨Option.some [1, 2], Option.some "p2"⟩
  else if u = "http://api/p2" then .ok ⟨Option.some [3], Option.none⟩
  else .error "404"

/-- Invariant used for the idempotence of the raw upsert: the table holds
at least one row with key `k`, and every row with key `k` stores the
content hash `h`. -/
def keyHashOK {α : Type} (tbl : List (RawRow α)) (k : Int × Nat) (h : String) : Prop :=
  (∃ s ∈ tbl, rowKey s = k) ∧ ∀ s ∈ tbl, rowKey s = k → s.source_hash = h

/-- `_pick` returns the value of the first qualifying candidate, expressed
through `List.find?`. -/
theorem pick_eq_find (row : PyRow) (keys : List String) :
    _pick row keys =
      match keys.find? (pickQualifies row) with
      | Option.some k => (List.lookup k row).getD .none
      | Option.none => .none := by
  induction keys with
  | nil => rfl
  | cons k ks ih =>
    simp only [_pick, List.find?]
    cases h : List.lookup k row with
    | none => simp [pickQualifies, h, ih]
    | some v =>
      by_cases hm : _is_missing v
      · simp [pickQualifies, h, hm, ih]
      · simp [pickQualifies, h, hm]

/-- Claim C5: `_is_missing` truth table — true on `None`, the empty
string, a whitespace-only string, the numbers `-1`, `-2`, `-3` and the
strings `"-1"`, `"-2"`, `"-3"`; false on `0`, `"0"`, `"-4"` and `False`. -/
theorem is_missing_truth_table :
    _is_missing .none = true ∧
    _is_missing (.str "") = true ∧
    _is_missing (.str " ") = true ∧
    _is_missing (.int (-1)) = true ∧
    _is_missing (.int (-2)) = true ∧
    _is_missing (.int (-3)) = true ∧
    _is_missing (.str "-1") = true ∧
    _is_missing (.str "-2") = true ∧
    _is_missing (.str "-3") = true ∧
    _is_missing (.int 0) = false ∧
    _is_missing (.str "0") = false ∧
    _is_missing (.str "-4") = false ∧
    _is_missing (.bool false) = false := by
  decide

/-- Claim C6: for every input record, the key list of the dict returned by
`map_directory_row` is exactly the column list declared for the
`directory` endpoint in the registry schema (hence the key sets agree,
with no extra and no missing keys). -/
theorem map_directory_row_keys (row : PyRow) :
    (map_directory_row row).map Prod.fst = directory_schema_columns := by
  rfl

/-- Claim C9: `_pick` returns the value of the first candidate key that is
present and non-missing and Python `None` when no candidate qualifies
(`List.find?` over the qualification test); in particular, on a record
holding only `"instnm": "X"`, the candidate list
`["inst_name", "institution_name", "instnm"]` resolves to `"X"`. -/
theorem pick_candidate_fallback :
    (∀ (row : PyRow) (keys : List String),
      _pick row keys =
        match keys.find? (pickQualifies row) with
        | Option.some k => (List.lookup k row).getD .none
        | Option.none => .none) ∧
    _pick [("instnm", .str "X")] ["inst_name", "institution_name", "instnm"] = .str "X" := by
  exact ⟨pick_eq_find, by decide⟩

/-- Truncation toward zero: the `int(float)` cast used by `_to_int`
(`Int.tdiv` of numerator by denominator) is the floor for non-negative
rationals and the ceiling for negative ones. -/
theorem tdiv_num_den_trunc (q : Rat) :
    q.num.tdiv q.den = if 0 ≤ q then ⌊q⌋ else ⌈q⌉ := by
  by_cases h : 0 ≤ q
  · rw [if_pos h, Rat.floor_def]
    exact Int.tdiv_eq_ediv (Rat.num_nonneg.mpr h) (Int.ofNat_zero_le _)
  · rw [if_neg h]
    have h2 : 0 ≤ -q := le_of_lt (neg_pos.mpr (lt_of_not_le h))
    have hf : (-q).num.tdiv (-q).den = ⌊-q⌋ := by
      rw [Rat.floor_def]
      exact Int.tdiv_eq_ediv (Rat.num_nonneg.mpr h2) (Int.ofNat_zero_le _)
    rw [Rat.num_neg_eq_neg_num, Rat.den_neg_eq_den, Int.neg_tdiv, Int.floor_neg] at hf
    omega

/-- Claim C8: the three coercions return `None` on every missing input;
the numeric coercions strip string input before parsing and yield `None`
(never an exception) on malformed input; the string coercion never
returns an empty string (an all-whitespace result collapses to `None`). -/
theorem coercions_contract :
    (∀ v : PyVal, _is_missing v = true →
      _to_int v = Option.none ∧ _to_float v = Option.none ∧ _to_str v = Option.none) ∧
    (∀ s : String, _to_int (.str s) =
      if _is_missing (.str s) then Option.none else pyParseInt (pyStrip s)) ∧
    (∀ s : String, _to_float (.str s) =
      if _is_missing (.str s) then Option.none else pyParseFloat (pyStrip s)) ∧
    (∀ v : PyVal, _to_str v ≠ Option.some "") ∧
    (_to_int (.str "abc") = Option.none ∧
     _to_float (.str "1.2.3") = Option.none ∧
     _to_str (.str "   ") = Option.none) := by
  refine ⟨?_, fun s => rfl, fun s => rfl, ?_, by decide⟩
  · intro v h
    simp [_to_int, _to_float, _to_str, h]
  · intro v
    simp only [_to_str]
    split
    · simp
    · split
      · simp
      · simp_all

/-- Witness for C8 at a concrete missing input (`"-2"`). -/
theorem coercions_contract_witness :
    _to_int (.str "-2") = Option.none ∧ _to_float (.str "-2") = Option.none ∧
      _to_str (.str "-2") = Option.none :=
  coercions_contract.1 (.str "-2") (by decide)

/-- Claim C10: `_to_int` truncates non-missing float input toward zero
(floor for non-negative, ceiling for negative — e.g. `12.9 ↦ 12`), while a
decimal string such as `"12.5"` yields `None`: a string is accepted only
when (after stripping) it parses as a plain integer. -/
theorem to_int_truncates_floats_rejects_decimal_strings :
    (∀ q : Rat, _is_missing (.float q) = false →
      _to_int (.float q) = Option.some (if 0 ≤ q then ⌊q⌋ else ⌈q⌉)) ∧
    _to_int (.float (mkRat 129 10)) = Option.some 12 ∧
    _to_int (.str "12.5") = Option.none ∧
    (∀ (s : String) (n : Int), _to_int (.str s) = Option.some n →
      pyParseInt (pyStrip s) = Option.some n) := by
  refine ⟨?_, by decide, by decide, ?_⟩
  · intro q h
    simp only [_to_int, h, Bool.false_eq_true, if_false, tdiv_num_den_trunc]
  · intro s n h
    simp only [_to_int] at h
    split at h
    · exact absurd h (by simp)
    · exact h

/-- Witness for C10: truncation toward zero at `-25.9` and floor at `12.9`
through the general float conjunct. -/
theorem to_int_truncation_witness :
    _to_int (.float (mkRat (-259) 10)) = Option.some (-25) := by
  have h := to_int_truncates_floats_rejects_decimal_strings.1 (mkRat (-259) 10) (by decide)
  rw [h]
  decide

/-- If the attempts starting at index `a` fail `k` times and then succeed,
and the loop has more than `k` attempts remaining, the retry loop returns
that success after exactly `k + 1` GET attempts. -/
theorem retryLoop_succeeds {ρ : Type} (outcome : Nat → Option ρ) :
    ∀ (k remaining a : Nat) (r : ρ), k < remaining →
      (∀ i, i < k → outcome (a + i) = Option.none) →
      outcome (a + k) = Option.some r →
      retryLoop outcome a remaining = (Option.some r, k + 1) := by
  intro k
  induction k with
  | zero =>
    intro remaining a r hk _ hs
    match remaining, hk with
    | remaining + 1, _ =>
      simp only [retryLoop]
      rw [show a + 0 = a from rfl] at hs
      rw [hs]
  | succ k ih =>
    intro remaining a r hk hfail hs
    match remaining, hk with
    | remaining + 1, hk =>
      have h0 : outcome a = Option.none := by
        have := hfail 0 (Nat.succ_pos k)
        simpa using this
      simp only [retryLoop, h0]
      have hrec := ih remaining (a + 1) r (Nat.lt_of_succ_lt_succ hk)
        (fun i hi => by
          have := hfail (i + 1) (Nat.succ_lt_succ hi)
          simpa [Nat.add_assoc, Nat.add_comm 1 i] using this)
        (by
          have : a + 1 + k = a + (k + 1) := by omega
          rw [this]; exact hs)
      rw [hrec]

/-- If all `remaining` attempts starting at index `a` fail, the retry loop
returns no response after exactly `remaining` GET attempts. -/
theorem retryLoop_fails {ρ : Type} (outcome : Nat → Option ρ) :
    ∀ (remaining a : Nat),
      (∀ i, i < remaining → outcome (a + i) = Option.none) →
      retryLoop outcome a remaining = (Option.none, remaining) := by
  intro remaining
  induction remaining with
  | zero => intro a _; rfl
  | succ remaining ih =>
    intro a hfail
    have h0 : outcome a = Option.none := by simpa using hfail 0 (Nat.succ_pos remaining)
    simp only [retryLoop, h0]
    rw [ih (a + 1) (fun i hi => by
      have := hfail (i + 1) (Nat.succ_lt_succ hi)
      simpa [Nat.add_assoc, Nat.add_comm 1 i] using this)]

/-- Claim C3: with `N = max_retries` attempts configured, if the GET fails
`N − 1` times and then succeeds, `get_with_retries` returns the successful
response after exactly `N` attempts; if it fails `N` consecutive times, it
raises the terminal fetch-exhausted error — whose message carries the
attempt count and the URL — after exactly `N` attempts and no more, and no
partial data is returned. -/
theorem get_with_retries_contract {ρ : Type} (outcome : Nat → Option ρ) (url : String)
    (N : Nat) (hN : 0 < N) :
    ((∀ i, i < N - 1 → outcome i = Option.none) → ∀ r, outcome (N - 1) = Option.some r →
      get_with_retries outcome url N = (Except.ok r, N)) ∧
    ((∀ i, i < N → outcome i = Option.none) →
      get_with_retries outcome url N =
        (Except.error ("[FAIL] Giving up after " ++ toString N ++
           " failed attempts to fetch " ++ url), N)) := by
  constructor
  · intro hfail r hs
    have h := retryLoop_succeeds outcome (N - 1) N 0 r (by omega)
      (fun i hi => by simpa using hfail i hi) (by simpa using hs)
    simp only [get_with_retries, h]
    have : N - 1 + 1 = N := by omega
    rw [this]
  · intro hfail
    have h := retryLoop_fails outcome N 0 (fun i hi => by simpa using hfail i hi)
    simp only [get_with_retries, h]

/-- Witness for C3 at `N = 3`: two transient failures then success yields
`(ok, 3)`; three failures yield the terminal error after 3 attempts. -/
theorem get_with_retries_contract_witness :
    get_with_retries (fun i => if i < 2 then Option.none else Option.some 99) "http://u" 3 =
      (Except.ok 99, 3) ∧
    get_with_retries (fun _ => (Option.none : Option Nat)) "http://u" 3 =
      (Except.error "[FAIL] Giving up after 3 failed attempts to fetch http://u", 3) := by
  constructor
  · exact (get_with_retries_contract (fun i => if i < 2 then Option.none else Option.some 99)
      "http://u" 3 (by decide)).1 (fun i hi => by interval_cases i <;> decide) 99 (by decide)
  · exact (get_with_retries_contract (fun _ => (Option.none : Option Nat))
      "http://u" 3 (by decide)).2 (fun i _ => rfl)

/-- The pagination loop, run with at least as much fuel as there are
pages in the chain, appends exactly the concatenation of the chain's
`results` lists to the accumulator and terminates normally. -/
theorem fetchLoop_chain {α : Type} (server : String → Except String (ApiPage α))
    (base : String) {url : String} {pages : List (List α)}
    (hc : PageChain server base url pages) :
    ∀ (acc : List α) (fuel : Nat), pages.length ≤ fuel →
      fetchLoop server base fuel url acc = Option.some (.ok (acc ++ pages.flatten)) := by
  induction hc with
  | @last url data hs hn =>
    intro acc fuel hf
    match fuel, hf with
    | fuel + 1, _ =>
      simp [fetchLoop, hs, hn]
  | @step url nu data rest hs hn hne _ ih =>
    intro acc fuel hf
    match fuel, hf with
    | fuel + 1, hf =>
      simp only [fetchLoop, hs, hn, if_neg hne]
      rw [ih (acc ++ data.results.getD []) fuel (by simpa using Nat.le_of_succ_le_succ hf)]
      simp

/-- Claim C2: for every page sequence in which page `k`'s response carries
a `next` cursor resolving to page `k + 1` and the last page omits `next`,
`fetch_endpoint_data` terminates (fuel = number of pages suffices, i.e.
the loop stops exactly when `next` is absent) and returns precisely the
in-order concatenation of all pages' `results`, with no duplication. -/
theorem fetch_endpoint_data_pagination {α : Type}
    (server : String → Except String (ApiPage α)) (base path : String)
    (pages : List (List α)) (fuel : Nat)
    (hc : PageChain server base (base ++ path) pages)
    (hf : pages.length ≤ fuel) :
    fetch_endpoint_data server base path fuel = Option.some (.ok pages.flatten) := by
  have h := fetchLoop_chain server base hc [] fuel hf
  simpa [fetch_endpoint_data] using h

/-- Witness for C2: a two-page chain (one relative `next` cursor) yields
the concatenation `[1, 2, 3]` with fuel equal to the page count. -/
theorem fetch_endpoint_data_pagination_witness :
    fetch_endpoint_data demoServer "http://api/" "d/2022/" 2 = Option.some (.ok [1, 2, 3]) := by
  have hs1 : demoServer ("http://api/" ++ "d/2022/") =
      Except.ok (⟨Option.some [1, 2], Option.some "p2"⟩ : ApiPage Nat) := rfl
  have hrest : PageChain demoServer "http://api/" (resolveNext "http://api/" "p2") [[3]] := by
    have hr : resolveNext "http://api/" "p2" = "http://api/p2" := by decide
    rw [hr]
    have hs2 : demoServer "http://api/p2" =
        Except.ok (⟨Option.some [3], Option.none⟩ : ApiPage Nat) := rfl
    exact PageChain.last hs2 rfl
  have hc : PageChain demoServer "http://api/" ("http://api/" ++ "d/2022/") [[1, 2], [3]] :=
    PageChain.step hs1 rfl (by decide) hrest
  exact fetch_endpoint_data_pagination demoServer "http://api/" "d/2022/" [[1, 2], [3]] 2 hc
    (by decide)

/-- Counterexample to claim C4 as stated: a successful response whose JSON
body lacks the `results` key does NOT make the fetcher raise.  With a
server that answers every URL with `{}` (no `results`, no `next`), the
fetch returns normally with zero records (`data.get("results", [])`
defaults to the empty list), and in particular never surfaces an error. -/
theorem fetch_missing_results_counterexample :
    fetch_endpoint_data (fun _ => Except.ok (⟨Option.none, Option.none⟩ : ApiPage Nat))
        "http://b/" "d/2022/" 1 = Option.some (.ok []) ∧
    ¬ ∃ e, fetch_endpoint_data (fun _ => Except.ok (⟨Option.none, Option.none⟩ : ApiPage Nat))
        "http://b/" "d/2022/" 1 = Option.some (.error e) := by
  constructor
  · rfl
  · rintro ⟨e, he⟩
    rw [show fetch_endpoint_data (fun _ => Except.ok (⟨Option.none, Option.none⟩ : ApiPage Nat))
        "http://b/" "d/2022/" 1 = Option.some (.ok []) from rfl] at he
    simp at he

/-- Claim C4 (amended): a successful response lacking the `results` key is
treated as an empty page — it contributes zero records and is not retried;
the loop then terminates normally when `next` is also absent, and follows
the cursor when `next` is present. -/
theorem fetch_missing_results_empty_page {α : Type}
    (server : String → Except String (ApiPage α)) (base url : String)
    (acc : List α) (fuel : Nat) (data : ApiPage α)
    (hs : server url = .ok data) (hres : data.results = Option.none) :
    (data.next = Option.none →
      fetchLoop server base (fuel + 1) url acc = Option.some (.ok acc)) ∧
    (∀ nu, data.next = Option.some nu → nu ≠ "" →
      fetchLoop server base (fuel + 1) url acc =
        fetchLoop server base fuel (resolveNext base nu) acc) := by
  constructor
  · intro hn
    simp [fetchLoop, hs, hres, hn]
  · intro nu hn hne
    simp [fetchLoop, hs, hres, hn, hne]

/-- Witness for the amended C4 at a concrete malformed page. -/
theorem fetch_missing_results_empty_page_witness :
    fetchLoop (fun _ => Except.ok (⟨Option.none, Option.none⟩ : ApiPage Nat)) "http://b/" 1
      "http://b/d/2022/" [] = Option.some (.ok []) :=
  (fetch_missing_results_empty_page
    (fun _ => Except.ok (⟨Option.none, Option.none⟩ : ApiPage Nat)) "http://b/"
    "http://b/d/2022/" [] 0 ⟨Option.none, Option.none⟩ rfl rfl).1 rfl

/-- The number of chunks is the ceiling `(n + ps - 1) / ps` — the length
of `range(0, n, ps)`. -/
theorem chunksOf_length {α : Type} (ps : Nat) (l : List α) :
    (chunksOf ps l).length = (l.length + ps - 1) / ps := by
  simp [chunksOf]

/-- The `i`-th chunk is the slice `l[i*ps : i*ps + ps]`. -/
theorem chunksOf_get {α : Type} (ps : Nat) (l : List α) (i : Nat)
    (h : i < (chunksOf ps l).length) :
    (chunksOf ps l).get ⟨i, h⟩ = (l.drop (i * ps)).take ps := by
  simp [chunksOf]

/-- Concatenating the chunks in order restores the record list: the
chunking loses nothing, duplicates nothing and preserves order. -/
theorem chunksOf_flatten {α : Type} (ps : Nat) (hps : ps ≠ 0) (l : List α) :
    (chunksOf ps l).flatten = l := by
  have hpspos : 0 < ps := Nat.pos_of_ne_zero hps
  generalize hk : (l.length + ps - 1) / ps = k
  induction k generalizing l with
  | zero =>
    have hlt : l.length + ps - 1 < ps := by
      by_contra hge
      have h1 : 1 ≤ (l.length + ps - 1) / ps := (Nat.one_le_div_iff hpspos).mpr (by omega)
      omega
    have hlen : l.length = 0 := by omega
    have : l = [] := List.eq_nil_of_length_eq_zero hlen
    subst this
    simp [chunksOf]
  | succ k ih =>
    have hk2 : ((l.length - ps) + ps - 1) / ps = k := by
      rcases Nat.lt_or_ge l.length ps with hlt | hge
      · have hlt2 : (l.length + ps - 1) / ps < 2 :=
          (Nat.div_lt_iff_lt_mul hpspos).mpr (by omega)
        have hk0 : k = 0 := by omega
        have hsub : l.length - ps = 0 := by omega
        rw [hsub, hk0]
        exact Nat.div_eq_of_lt (by omega)
      · have h2 : l.length + ps - 1 = (l.length - 1) + ps := by omega
        rw [h2, Nat.add_div_right _ hpspos] at hk
        have h3 : l.length - ps + ps - 1 = l.length - 1 := by omega
        rw [h3]
        omega
    have hrec := ih (l.drop ps) (by simpa using hk2)
    show ((List.range ((l.length + ps - 1) / ps)).map
      (fun i => (l.drop (i * ps)).take ps)).flatten = l
    rw [hk, List.range_succ_eq_map]
    simp only [List.map_cons, List.map_map, List.flatten_cons, Nat.zero_mul, List.drop_zero]
    have htail : (List.range k).map ((fun i => (l.drop (i * ps)).take ps) ∘ (· + 1)) =
        (List.range k).map (fun i => ((l.drop ps).drop (i * ps)).take ps) := by
      apply List.map_congr_left
      intro i _
      simp only [Function.comp_apply, List.drop_drop]
      have h5 : (i + 1) * ps = ps + i * ps := by ring
      rw [h5]
    rw [htail]
    have hcount : ((l.drop ps).length + ps - 1) / ps = k := by simpa using hk2
    have hrec2 : ((List.range k).map
        (fun i => ((l.drop ps).drop (i * ps)).take ps)).flatten = l.drop ps := by
      have := hrec
      simp only [chunksOf, hcount] at this
      exact this
    rw [hrec2]
    exact List.take_append_drop ps l

/-- Claim C7: `insert_raw_payloads` partitions the fetched records into
`⌈n / ps⌉` fixed-size slices in original order (the `i`-th page row holds
the slice `l[i*ps : i*ps + ps]`), numbers the pages `1, 2, …` in order,
records each chunk's length, and reports the page count. -/
theorem upsert_pages_chunking {α : Type} (ps : Nat) (hps : 0 < ps) (l : List α)
    (hash : List α → String) (b p : String) (y : Int) (now : Nat)
    (tbl : List (RawRow α)) :
    (chunksOf ps l).length = (l.length + ps - 1) / ps ∧
    (chunksOf ps l).flatten = l ∧
    (∀ (i : Nat) (h : i < (chunksOf ps l).length),
      (chunksOf ps l).get ⟨i, h⟩ = (l.drop (i * ps)).take ps) ∧
    (buildRawRows hash b p y ps now (chunksOf ps l)).map RawRow.page_number =
      List.range' 1 (chunksOf ps l).length ∧
    (buildRawRows hash b p y ps now (chunksOf ps l)).map RawRow.record_count =
      (chunksOf ps l).map List.length ∧
    (insert_raw_payloads hash b p y (Option.some ps) now l tbl).2 =
      (chunksOf ps l).length := by
  refine ⟨chunksOf_length ps l, chunksOf_flatten ps (Nat.pos_iff_ne_zero.mp hps) l,
    chunksOf_get ps l, ?_, ?_, ?_⟩
  · show ((chunksOf ps l).enum.map _).map RawRow.page_number = _
    rw [List.map_map]
    have h1 : ((chunksOf ps l).enum.map Prod.fst).map (· + 1) =
        (chunksOf ps l).enum.map (RawRow.page_number ∘ fun q : Nat × List α =>
          ({ year := y, page_number := q.1 + 1,
             source_url := pageSourceUrl b p y (q.1 + 1) ps,
             source_hash := hash q.2, ingested_at := now,
             record_count := q.2.length, payload := q.2 } : RawRow α)) := by
      rw [List.map_map]
      rfl
    rw [← h1, List.enum_map_fst, List.range'_eq_map_range]
    exact List.map_congr_left (fun i _ => Nat.add_comm i 1)
  · show ((chunksOf ps l).enum.map _).map RawRow.record_count = _
    rw [List.map_map]
    have h1 : ((chunksOf ps l).enum.map Prod.snd).map List.length =
        (chunksOf ps l).enum.map (RawRow.record_count ∘ fun q : Nat × List α =>
          ({ year := y, page_number := q.1 + 1,
             source_url := pageSourceUrl b p y (q.1 + 1) ps,
             source_hash := hash q.2, ingested_at := now,
             record_count := q.2.length, payload := q.2 } : RawRow α)) := by
      rw [List.map_map]
      rfl
    rw [← h1, List.enum_map_snd]
  · simp only [insert_raw_payloads]
    have hps0 : effectivePageSize (Option.some ps) = ps := by
      simp [effectivePageSize, Nat.pos_iff_ne_zero.mp hps]
    rw [hps0]
    split
    · next hemp =>
      rw [List.isEmpty_iff] at hemp
      rw [hemp]
      rfl
    · rfl

/-- Witness for C7 at the claim's concrete instance: 1250 records at page
size 500 produce exactly 3 pages with record counts 500, 500, 250 and page
numbers 1, 2, 3. -/
theorem upsert_pages_chunking_witness :
    (insert_raw_payloads (fun _ => "h") "http://B" "p/" 2022 (Option.some 500) 7
        (List.replicate 1250 (0 : Nat)) []).2 = 3 ∧
    (buildRawRows (fun _ => "h") "http://B" "p/" 2022 500 7
        (chunksOf 500 (List.replicate 1250 (0 : Nat)))).map RawRow.page_number = [1, 2, 3] ∧
    (buildRawRows (fun _ => "h") "http://B" "p/" 2022 500 7
        (chunksOf 500 (List.replicate 1250 (0 : Nat)))).map RawRow.record_count =
      [500, 500, 250] := by
  obtain ⟨hlen, -, hget, hpn, hrc, hcount⟩ :=
    upsert_pages_chunking 500 (by decide) (List.replicate 1250 (0 : Nat))
      (fun _ => "h") "http://B" "p/" 2022 7 []
  have hlen3 : (chunksOf 500 (List.replicate 1250 (0 : Nat))).length = 3 := by
    rw [hlen, List.length_replicate]
  have hmap : (chunksOf 500 (List.replicate 1250 (0 : Nat))).map List.length =
      [500, 500, 250] := by
    apply List.ext_get
    · rw [List.length_map, hlen3]
      rfl
    · intro i h1 h2
      rw [List.length_map, hlen3] at h1
      interval_cases i <;>
        simp only [List.get_map, hget, List.drop_replicate, List.take_replicate,
          List.length_replicate] <;> rfl
  refine ⟨by rw [hcount, hlen3], by rw [hpn, hlen3]; rfl, by rw [hrc, hmap]⟩

/-- The per-element effect of the conflict-gated `UPDATE`: it never
changes a row's key, and any row carrying the conflicting key ends up
storing the incoming hash. -/
theorem upsert_update_elem {α : Type} (now : Nat) (r s : RawRow α) :
    rowKey (if rowKey s = rowKey r ∧ s.source_hash ≠ r.source_hash then
      { r with ingested_at := now } else s) = rowKey s ∧
    (rowKey s = rowKey r →
      (if rowKey s = rowKey r ∧ s.source_hash ≠ r.source_hash then
        { r with ingested_at := now } else s).source_hash = r.source_hash) := by
  constructor
  · split
    · next hc => exact hc.1.symm
    · rfl
  · intro hk
    split
    · rfl
    · next hc =>
      by_cases hh : s.source_hash = r.source_hash
      · exact hh
      · exact absurd ⟨hk, hh⟩ hc

/-- After upserting `r`, the table holds `r`'s key and every row with that
key stores `r`'s hash. -/
theorem upsertRawRow_keyHashOK {α : Type} (now : Nat) (tbl : List (RawRow α)) (r : RawRow α) :
    keyHashOK (upsertRawRow now tbl r) (rowKey r) r.source_hash := by
  unfold upsertRawRow
  split
  · next hany =>
    rw [List.any_eq_true] at hany
    obtain ⟨s0, hs0, hks0⟩ := hany
    rw [decide_eq_true_eq] at hks0
    constructor
    · exact ⟨_, List.mem_map_of_mem _ hs0,
        ((upsert_update_elem now r s0).1).trans hks0⟩
    · intro s hs hk
      rw [List.mem_map] at hs
      obtain ⟨t, ht, rfl⟩ := hs
      exact (upsert_update_elem now r t).2 (((upsert_update_elem now r t).1).symm.trans hk)
  · next hnone =>
    constructor
    · exact ⟨r, by simp, rfl⟩
    · intro s hs hk
      rcases List.mem_append.mp hs with hs | hs
      · exact absurd (List.any_eq_true.mpr ⟨s, hs, by rw [decide_eq_true_eq]; exact hk⟩) hnone
      · rw [List.mem_singleton.mp hs]

/-- Upserting a row with a different key neither removes a key from the
table nor changes the hash stored under it. -/
theorem upsertRawRow_preserves {α : Type} (now : Nat) (tbl : List (RawRow α)) (r : RawRow α)
    (k : Int × Nat) (h : String) (hne : rowKey r ≠ k) (hok : keyHashOK tbl k h) :
    keyHashOK (upsertRawRow now tbl r) k h := by
  obtain ⟨⟨s0, hs0, hk0⟩, hall⟩ := hok
  unfold upsertRawRow
  split
  · constructor
    · exact ⟨_, List.mem_map_of_mem _ hs0, ((upsert_update_elem now r s0).1).trans hk0⟩
    · intro s hs hk
      rw [List.mem_map] at hs
      obtain ⟨t, ht, rfl⟩ := hs
      have hkt : rowKey t = k := ((upsert_update_elem now r t).1).symm.trans hk
      split
      · next hc => exact absurd (hc.1.symm.trans hkt) hne
      · exact hall t ht hkt
  · constructor
    · exact ⟨s0, List.mem_append_left _ hs0, hk0⟩
    · intro s hs hk
      rcases List.mem_append.mp hs with hs | hs
      · exact hall s hs hk
      · rw [List.mem_singleton.mp hs] at hk ⊢
        exact absurd hk hne

/-- When the table already holds `r`'s key with `r`'s hash everywhere, the
hash-gated upsert is a no-op: the `WHERE ... IS DISTINCT FROM` clause
blocks the update, so neither `ingested_at` nor the payload is rewritten. -/
theorem upsertRawRow_skip {α : Type} (now : Nat) (tbl : List (RawRow α)) (r : RawRow α)
    (hok : keyHashOK tbl (rowKey r) r.source_hash) :
    upsertRawRow now tbl r = tbl := by
  obtain ⟨⟨s0, hs0, hk0⟩, hall⟩ := hok
  unfold upsertRawRow
  rw [if_pos (List.any_eq_true.mpr ⟨s0, hs0, by rw [decide_eq_true_eq]; exact hk0⟩)]
  refine (List.map_congr_left ?_).trans tbl.map_id
  intro s hs
  have hc : ¬(rowKey s = rowKey r ∧ s.source_hash ≠ r.source_hash) := by
    rintro ⟨hk, hh⟩
    exact hh (hall s hs hk)
  rw [if_neg hc]
  rfl

/-- Folding upserts whose keys all differ from `k` preserves the key/hash
invariant at `k`. -/
theorem foldl_upsert_preserves {α : Type} (now : Nat) :
    ∀ (rows tbl : List (RawRow α)) (k : Int × Nat) (h : String),
      (∀ r ∈ rows, rowKey r ≠ k) → keyHashOK tbl k h →
      keyHashOK (rows.foldl (upsertRawRow now) tbl) k h := by
  intro rows
  induction rows with
  | nil => intro tbl k h _ hok; exact hok
  | cons r rest ih =>
    intro tbl k h hne hok
    simp only [List.foldl_cons]
    exact ih _ k h (fun x hx => hne x (List.mem_cons_of_mem r hx))
      (upsertRawRow_preserves now tbl r k h (hne r (List.mem_cons_self r rest)) hok)

/-- After one run over page rows with pairwise-distinct keys, every row's
key is stored with that row's hash. -/
theorem foldl_upsert_establishes {α : Type} (now : Nat) :
    ∀ (rows tbl : List (RawRow α)), (rows.map rowKey).Nodup →
      ∀ r ∈ rows, keyHashOK (rows.foldl (upsertRawRow now) tbl) (rowKey r) r.source_hash := by
  intro rows
  induction rows with
  | nil => intro tbl _ r hr; cases hr
  | cons r0 rest ih =>
    intro tbl hnd r hr
    rw [List.map_cons, List.nodup_cons] at hnd
    simp only [List.foldl_cons]
    rcases List.mem_cons.mp hr with rfl | hr
    · apply foldl_upsert_preserves
      · intro x hx he
        exact hnd.1 (he ▸ List.mem_map_of_mem rowKey hx)
      · exact upsertRawRow_keyHashOK now tbl r
    · exact ih _ hnd.2 r hr

/-- A second run whose rows all satisfy the key/hash invariant leaves the
table exactly as it was. -/
theorem foldl_upsert_skip {α : Type} (now : Nat) :
    ∀ (rows tbl : List (RawRow α)),
      (∀ r ∈ rows, keyHashOK tbl (rowKey r) r.source_hash) →
      rows.foldl (upsertRawRow now) tbl = tbl := by
  intro rows
  induction rows with
  | nil => intro tbl _; rfl
  | cons r rest ih =>
    intro tbl hok
    simp only [List.foldl_cons]
    rw [upsertRawRow_skip now tbl r (hok r (List.mem_cons_self r rest))]
    exact ih tbl (fun x hx => hok x (List.mem_cons_of_mem r hx))

/-- Page rows of one run have pairwise-distinct keys (one page number per
chunk, same year). -/
theorem buildRawRows_keys_nodup {α : Type} (hash : List α → String) (b p : String)
    (y : Int) (ps now : Nat) (chunks : List (List α)) :
    ((buildRawRows hash b p y ps now chunks).map rowKey).Nodup := by
  have h1 : (buildRawRows hash b p y ps now chunks).map rowKey =
      (chunks.enum.map Prod.fst).map (fun i => ((y, i + 1) : Int × Nat)) := by
    simp only [buildRawRows, List.map_map]
    rfl
  rw [h1, List.enum_map_fst]
  apply List.Nodup.map
  · intro a b hab
    simp only [Prod.mk.injEq] at hab
    omega
  · exact List.nodup_range _

/-- The page rows of two runs over the same chunks differ only in their
timestamp: keys and hashes correspond pairwise. -/
theorem buildRawRows_keyhash_mem {α : Type} (hash : List α → String) (b p : String)
    (y : Int) (ps t1 t2 : Nat) (chunks : List (List α)) (r2 : RawRow α)
    (h : r2 ∈ buildRawRows hash b p y ps t2 chunks) :
    ∃ r1 ∈ buildRawRows hash b p y ps t1 chunks,
      rowKey r1 = rowKey r2 ∧ r1.source_hash = r2.source_hash := by
  simp only [buildRawRows, List.mem_map] at h ⊢
  obtain ⟨q, hq, rfl⟩ := h
  exact ⟨_, ⟨q, hq, rfl⟩, rfl, rfl⟩

/-- Re-running the upsert fold with the same chunks (any timestamp) is a
no-op. -/
theorem fold_build_idempotent {α : Type} (hash : List α → String) (b p : String)
    (y : Int) (ps t1 t2 : Nat) (chunks : List (List α)) (tbl0 : List (RawRow α)) :
    (buildRawRows hash b p y ps t2 chunks).foldl (upsertRawRow t2)
        ((buildRawRows hash b p y ps t1 chunks).foldl (upsertRawRow t1) tbl0) =
      (buildRawRows hash b p y ps t1 chunks).foldl (upsertRawRow t1) tbl0 := by
  apply foldl_upsert_skip
  intro r2 hr2
  obtain ⟨r1, hr1, hk, hh⟩ := buildRawRows_keyhash_mem hash b p y ps t1 t2 chunks r2 hr2
  rw [← hk, ← hh]
  exact foldl_upsert_establishes t1 _ tbl0
    (buildRawRows_keys_nodup hash b p y ps t1 chunks) r1 hr1

/-- Claim C1: the raw-archive upsert is idempotent.  Running
`insert_raw_payloads` a second time with identical fetched records (at any
later wall-clock time `t2`) leaves the table state — in particular every
stored row's `ingested_at` and payload — exactly as the first run left
it, because the `ON CONFLICT` update fires only when the freshly computed
content hash differs from the stored `source_hash`. -/
theorem insert_raw_payloads_idempotent {α : Type} (hash : List α → String)
    (b p : String) (y : Int) (psz : Option Nat) (t1 t2 : Nat)
    (recs : List α) (tbl0 : List (RawRow α)) :
    (insert_raw_payloads hash b p y psz t2 recs
        (insert_raw_payloads hash b p y psz t1 recs tbl0).1).1 =
      (insert_raw_payloads hash b p y psz t1 recs tbl0).1 := by
  simp only [insert_raw_payloads]
  by_cases hemp : (chunksOf (effectivePageSize psz) recs).isEmpty
  · simp [hemp]
  · simp only [hemp, Bool.false_eq_true, if_false]
    exact fold_build_idempotent hash b p y (effectivePageSize psz) t1 t2
      (chunksOf (effectivePageSize psz) recs) tbl0
